import Mathlib

/-!
Shallow embedding of the elsewherr repository (elsewherr.py and providers.py):
pure Lean translations of the string handling, tag reconciliation, movie
processing and reference dump logic, together with theorems checking the
specification claims against them.
-/

/-! ### String helpers mirroring the Python operations used by the source -/

/-- Embedding of Python `re.sub("[^A-Za-z0-9]+", "", s)`: every character outside
`[A-Za-z0-9]` is removed. -/
def reSubNonAlnum (s : String) : String :=
  ⟨s.data.filter Char.isAlphanum⟩

/-- Embedding of Python `str.lower()`. The program only ever lowercases ASCII
data, where `Char.toLower` agrees with Python. -/
def lowerStr (s : String) : String :=
  ⟨s.data.map Char.toLower⟩

/-- Embedding of the Python substring test `needle in hay`. -/
def strContains (hay needle : String) : Bool :=
  decide (needle.data <:+: hay.data)

/-- Worker for Python `s.replace(pat, "")` with nonempty pattern `p :: ps`:
scan left to right, dropping each non-overlapping occurrence of the pattern.
The fuel argument only makes the recursion structural; each step consumes at
least one character, so fuel `l.length` never runs out. -/
def replaceAllAux (p : Char) (ps : List Char) : Nat → List Char → List Char
  | _, [] => []
  | 0, l => l
  | fuel + 1, c :: cs =>
    if (p :: ps) <+: (c :: cs) then replaceAllAux p ps fuel (cs.drop ps.length)
    else c :: replaceAllAux p ps fuel cs

/-- Embedding of Python `s.replace(pat, "")`: all occurrences of `pat` in `s`
are removed, scanning left to right. An empty pattern leaves `s` unchanged
(Python inserts the empty replacement between characters, a no-op). -/
def pyRemoveAll (s pat : String) : String :=
  match pat.data with
  | [] => s
  | p :: ps => ⟨replaceAllAux p ps s.data.length s.data⟩

/-! ### Data model (elsewherr.py) -/

/-- A Radarr tag record `{id, label}`. -/
structure Tag where
  id : Nat
  label : String
deriving DecidableEq

/-- The configuration record loaded from config.yaml. The field `tagPfx` models
the `tagPrefix` entry. -/
structure Config where
  radarrUrl : String
  radarrApiKey : String
  tmdbApiKey : String
  tagPfx : String
  requiredProviders : List String
  providerRegion : String

/-! ### Tag creation and classification (elsewherr.py) -/

/-- The tag label computed at elsewherr.py line 30:
`(config["tagPrefix"] + re.sub("[^A-Za-z0-9]+", "", required_provider)).lower()`. -/
def createProviderTagLabel (pre providerName : String) : String :=
  lowerStr (pre ++ reSubNonAlnum providerName)

/-- Embedding of `create_provider_tags`: the list of tag records posted to
Radarr, one `{label, id: 0}` per required provider. -/
def create_provider_tags (config : Config) : List Tag :=
  config.requiredProviders.map
    (fun rp => { id := 0, label := createProviderTagLabel config.tagPfx rp })

/-- The per-provider normalization computed at elsewherr.py line 157:
`re.sub("[^A-Za-z0-9]+", "", x).lower()`. -/
def normalizeProviderName (x : String) : String :=
  lowerStr (reSubNonAlnum x)

/-- Embedding of line 157 of main: `required_providers_lower`. -/
def required_providers_lower (requiredProviders : List String) : List String :=
  requiredProviders.map normalizeProviderName

/-- Embedding of `get_provider_tags` (lines 51-57): from the parsed Radarr tag
list, the pair `(provider_tags_to_remove, provider_tags_to_add)`. -/
def get_provider_tags (config : Config) (requiredProvidersLower : List String)
    (existingTags : List Tag) : List Tag × List Tag :=
  (existingTags.filter (fun t => strContains t.label (lowerStr config.tagPfx)),
   existingTags.filter (fun t =>
     requiredProvidersLower.contains (pyRemoveAll t.label (lowerStr config.tagPfx))))

/-- Embedding of `remove_provider_tags` (lines 119-128): for each id appearing
in `provider_tags_to_remove`, `update_tags.remove(id)` removes the first
occurrence of that id, and the `ValueError` raised for an absent id is caught
and ignored, which is exactly `List.erase`. -/
def remove_provider_tags (updateTags : List Nat) (providerTagsToRemove : List Tag) : List Nat :=
  providerTagsToRemove.foldl (fun acc t => acc.erase t.id) updateTags

/-! ### Movie processing (elsewherr.py) -/

/-- A Radarr movie record: title, TMDB id and the currently applied tag ids
(other passthrough fields are not inspected by the program). -/
structure Movie where
  title : String
  tmdbId : Nat
  tags : List Nat
deriving DecidableEq

/-- One entry of a TMDB `flatrate` list: `{provider_name}`. -/
structure ProviderEntry where
  provider_name : String
deriving DecidableEq

/-- The per-region part of a TMDB watch-providers response; `flatrate` is
`none` when the `flatrate` key is absent. -/
structure RegionEntry where
  flatrate : Option (List ProviderEntry)
deriving DecidableEq

/-- A parsed TMDB watch-providers response: `results` maps region keys to
region entries; an absent region key is an unsuccessful lookup. -/
structure TmdbResponse where
  results : List (String × RegionEntry)
deriving DecidableEq

/-- The tag label computed at elsewherr.py line 93 when matching a movie to
tags: `(config["tagPrefix"] + re.sub("[^A-Za-z0-9]+", "", provider_name)).lower()`. -/
def processTagToAdd (pre providerName : String) : String :=
  lowerStr (pre ++ reSubNonAlnum providerName)

/-- The lookup `tmdb_providers["results"][region]["flatrate"]` performed at
line 80; `none` exactly when a `KeyError` would be raised. -/
def flatrateLookup (resp : TmdbResponse) (region : String) : Option (List ProviderEntry) :=
  (List.lookup region resp.results).bind RegionEntry.flatrate

/-- Observable actions of the per-movie loop body. `radarrPut` is the movie
update call of the commented-out line 105; it is part of the action vocabulary
so that its absence from every run is a statement, not a typing accident. -/
inductive MovieAction where
  | logAddTag (label : String)
  | radarrPut (movie : Movie)
deriving DecidableEq

/-- Outcome of one iteration of the `process_movies` loop: the input record,
whether the movie was skipped by `continue`, the logged actions, and the
record logged at line 101 as the updated movie (absent when skipped). -/
structure MovieResult where
  movie : Movie
  skipped : Bool
  actions : List MovieAction
  updatedRecord : Option Movie
deriving DecidableEq

/-- Embedding of one iteration of the `process_movies` loop (lines 69-108).
On a failed region or flatrate lookup the `KeyError` branch runs `continue`;
otherwise every flat-rate provider is matched against every candidate tag by
the substring test of line 96 and a log entry is emitted per match, the
update record staying the movie record itself (lines 70 and 100-105 never
modify it). -/
def processMovie (config : Config) (providerTagsToAdd : List Tag)
    (resp : TmdbResponse) (movie : Movie) : MovieResult :=
  match flatrateLookup resp config.providerRegion with
  | none => { movie := movie, skipped := true, actions := [], updatedRecord := none }
  | some providers =>
    { movie := movie
      skipped := false
      actions := (providers.map (fun provider =>
        let tagToAdd := processTagToAdd config.tagPfx provider.provider_name
        providerTagsToAdd.filterMap (fun t =>
          if strContains t.label tagToAdd then some (MovieAction.logAddTag tagToAdd)
          else none))).flatten
      updatedRecord := some movie }

/-- Embedding of `process_movies` (lines 63-108): each movie is processed in
turn; `provider_tags_to_remove` is received but, with line 89 commented out,
never used. The TMDB client is abstracted as a map from TMDB ids to parsed
responses. -/
def process_movies (movies : List Movie) (config : Config)
    (providerTagsToRemove providerTagsToAdd : List Tag)
    (tmdb : Nat → TmdbResponse) : List MovieResult :=
  movies.map (fun movie => processMovie config providerTagsToAdd (tmdb movie.tmdbId) movie)

/-! ### Main control flow (elsewherr.py lines 149-169) -/

/-- The steps of `main` that involve an external call, in source order. -/
inductive Step where
  | loadConfig
  | createProviderTags
  | getProviderTags
  | getMoviesFromRadarr
  | processMovies
deriving DecidableEq

/-- Outcomes of the fallible steps of a run: loading config.yaml and the
Radarr tag listing inside `get_provider_tags` (both re-raise on failure);
`get_movies_from_radarr` never raises (it returns `[]` on error). -/
structure RunEnv where
  configResult : Except String Config
  tagsResult : Except String (List Tag)
  moviesResult : List Movie
  tmdb : Nat → TmdbResponse

/-- Embedding of the control flow of `main`: the steps attempted, in order.
The enclosing `try` of lines 155-169 catches a raised exception, logs it and
ends the run, so steps after a raising step are never attempted. -/
def runMainSteps (env : RunEnv) : List Step :=
  match env.configResult with
  | .error _ => [Step.loadConfig]
  | .ok _ =>
    match env.tagsResult with
    | .error _ => [Step.loadConfig, Step.createProviderTags, Step.getProviderTags]
    | .ok _ =>
      [Step.loadConfig, Step.createProviderTags, Step.getProviderTags,
       Step.getMoviesFromRadarr, Step.processMovies]

/-! ### Reference dump utility (providers.py) -/

/-- A TMDB region record `{iso_3166_1, english_name}`. -/
structure RegionRecord where
  iso_3166_1 : String
  english_name : String
deriving DecidableEq

/-- A TMDB provider record; `provider_name` is `none` when the key is absent,
in which case `p.get("provider_name", "")` yields the empty string. -/
structure ProviderRecord where
  provider_name : Option String
deriving DecidableEq

/-- Concatenation of a list of written lines, in order: the sequence of
`file.write` calls of providers.py. -/
def linesConcat : List String → String
  | [] => ""
  | s :: rest => s ++ linesConcat rest

/-- Embedding of `write_to_file` (providers.py lines 60-76): the text written
to the report file, a region section followed by a provider section. -/
def write_to_file (regions : List RegionRecord) (providers : List String) : String :=
  "Regions\n-------\n"
    ++ linesConcat (regions.map (fun r => r.iso_3166_1 ++ "\t" ++ r.english_name ++ "\n"))
    ++ "\n\nProviders\n---------\n"
    ++ linesConcat (providers.map (fun p => p ++ "\n"))

/-- Python string comparison: lexicographic by code points, which is exactly
the lexicographic order on the underlying character lists (and agrees with the
order on `String`, see `strDataLe_iff`). -/
def strDataLe (a b : String) : Prop :=
  a.data ≤ b.data

instance : DecidableRel strDataLe := fun a b =>
  inferInstanceAs (Decidable (a.data ≤ b.data))

/-- Embedding of providers.py line 91:
`sorted(set(p.get("provider_name", "") for p in providers))`. -/
def all_providers (providers : List ProviderRecord) : List String :=
  List.insertionSort strDataLe (providers.map (fun p => p.provider_name.getD "")).dedup

/-- Embedding of the pure part of providers.py `main` (lines 88-93): the full
report text produced for given fetched regions and providers. -/
def providersReport (regions : List RegionRecord) (providers : List ProviderRecord) : String :=
  write_to_file regions (all_providers providers)

/-- Recognizer for the log-only actions of the movie loop: `true` exactly on
actions that are not the Radarr movie-update call. -/
def movieActionIsLogAdd : MovieAction → Bool
  | .logAddTag _ => true
  | .radarrPut _ => false

/-- A concrete run environment whose Radarr tag listing fails. -/
def envTagsFail : RunEnv :=
  { configResult := Except.ok
      { radarrUrl := "u", radarrApiKey := "k", tmdbApiKey := "tm", tagPfx := "t-",
        requiredProviders := ["Netflix"], providerRegion := "US" }
    tagsResult := Except.error "connection refused"
    moviesResult := []
    tmdb := fun _ => ⟨[]⟩ }

/-! ### Specification-side definitions

These follow the wording of the specification, for comparison against the
definitions translated from the source. -/

/-- Spec formula for the managed tag label:
`lowercase(prefix + stripped-alphanumeric(name))`. -/
def specTagLabel (pre name : String) : String :=
  lowerStr (pre ++ reSubNonAlnum name)

/-- Case-insensitive substring containment, the reading the specification uses
for `toRemove` ("label contains the prefix (case-insensitive)"). -/
def ciContains (hay needle : String) : Bool :=
  strContains (lowerStr hay) (lowerStr needle)

/-- The specification description of `toRemove`: every existing tag whose
label contains the prefix, case-insensitively. -/
def specToRemove (pre : String) (existingTags : List Tag) : List Tag :=
  existingTags.filter (fun t => ciContains t.label pre)

/-- A string with a leading pattern stripped when present: the specification
reading of a label "with the prefix stripped". -/
def stripLeading (pat s : String) : String :=
  if pat.data <+: s.data then ⟨s.data.drop pat.data.length⟩ else s

/-- The specification description of `toAdd`: every existing tag whose label,
with the prefix stripped, exactly matches one of the normalized required
names. -/
def specToAdd (pre : String) (requiredProvidersLower : List String)
    (existingTags : List Tag) : List Tag :=
  existingTags.filter
    (fun t => requiredProvidersLower.contains (stripLeading (lowerStr pre) t.label))

/-! ### Character-level helper lemmas -/

theorem charToNatOfNat {n : Nat} (h : n.isValidChar) : (Char.ofNat n).toNat = n := by
  rw [Char.ofNat, dif_pos h]
  simp [Char.ofNatAux, Char.toNat, UInt32.toNat]

theorem toLowerToNat (c : Char) :
    c.toLower.toNat = if 65 ≤ c.toNat ∧ c.toNat ≤ 90 then c.toNat + 32 else c.toNat := by
  unfold Char.toLower
  split
  · next h =>
    rw [if_pos (by omega)]
    exact charToNatOfNat (Or.inl (by omega))
  · next h =>
    rw [if_neg (by omega)]

theorem charEqOfToNat {c d : Char} (h : c.toNat = d.toNat) : c = d := by
  apply Char.eq_of_val_eq
  apply UInt32.eq_of_toBitVec_eq
  exact BitVec.eq_of_toNat_eq h

theorem isLowerIff (c : Char) : c.isLower = true ↔ 97 ≤ c.toNat ∧ c.toNat ≤ 122 := by
  simp [Char.isLower, Char.toNat, UInt32.toNat, UInt32.le_def, BitVec.le_def]

theorem isDigitIff (c : Char) : c.isDigit = true ↔ 48 ≤ c.toNat ∧ c.toNat ≤ 57 := by
  simp [Char.isDigit, Char.toNat, UInt32.toNat, UInt32.le_def, BitVec.le_def]

theorem isUpperIff (c : Char) : c.isUpper = true ↔ 65 ≤ c.toNat ∧ c.toNat ≤ 90 := by
  simp [Char.isUpper, Char.toNat, UInt32.toNat, UInt32.le_def, BitVec.le_def]

theorem isAlphanumIff (c : Char) :
    c.isAlphanum = true ↔
      (65 ≤ c.toNat ∧ c.toNat ≤ 90) ∨ (97 ≤ c.toNat ∧ c.toNat ≤ 122) ∨
        (48 ≤ c.toNat ∧ c.toNat ≤ 57) := by
  simp [Char.isAlphanum, Char.isAlpha, isUpperIff, isLowerIff, isDigitIff, or_assoc]

theorem toLowerIdem (c : Char) : c.toLower.toLower = c.toLower := by
  apply charEqOfToNat
  rw [toLowerToNat c.toLower, toLowerToNat c]
  split_ifs <;> omega

theorem alnumToLowerAlnum {c : Char} (h : c.isAlphanum = true) :
    c.toLower.isAlphanum = true := by
  rw [isAlphanumIff] at h ⊢
  rw [toLowerToNat]
  split_ifs <;> omega

theorem alnumToLowerLowerOrDigit {c : Char} (h : c.isAlphanum = true) :
    (c.toLower.isLower || c.toLower.isDigit) = true := by
  rw [Bool.or_eq_true, isLowerIff, isDigitIff, toLowerToNat]
  rw [isAlphanumIff] at h
  split_ifs <;> omega

/-! ### List-level helper lemmas for the normalization -/

theorem normListIdem (l : List Char) :
    (((l.filter Char.isAlphanum).map Char.toLower).filter Char.isAlphanum).map Char.toLower
      = (l.filter Char.isAlphanum).map Char.toLower := by
  rw [List.filter_map, List.map_map, List.filter_filter]
  have h1 : (Char.toLower ∘ Char.toLower) = Char.toLower := funext toLowerIdem
  have h2 : (fun a => (Char.isAlphanum ∘ Char.toLower) a && Char.isAlphanum a)
      = Char.isAlphanum := by
    funext a
    cases h : a.isAlphanum
    · simp [h]
    · simp [h, Function.comp, alnumToLowerAlnum h]
  rw [h1, h2]

theorem normAllLowerDigit (l : List Char) :
    ((l.filter Char.isAlphanum).map Char.toLower).all (fun c => c.isLower || c.isDigit) = true := by
  rw [List.all_eq_true]
  intro c hc
  rw [List.mem_map] at hc
  obtain ⟨a, ha, rfl⟩ := hc
  exact alnumToLowerLowerOrDigit (List.mem_filter.mp ha).2

/-! ### Order-related helper lemmas for the provider report -/

theorem charListNotLtNil (l : List Char) : ¬ l < ([] : List Char) := by
  intro h
  cases h

theorem emptyStringLe (s : String) : "" ≤ s := by
  have h : ¬ s < "" := by
    rw [String.lt_iff_toList_lt]
    exact fun hlt => charListNotLtNil s.toList (by simpa using hlt)
  exact not_lt.mp h

theorem strDataLe_iff (a b : String) : strDataLe a b ↔ a ≤ b := by
  rw [String.le_iff_toList_le]
  exact Iff.rfl

instance : IsTotal String strDataLe :=
  ⟨fun a b => le_total a.data b.data⟩

instance : IsTrans String strDataLe :=
  ⟨fun _ _ _ hab hbc => le_trans hab hbc⟩

/-! ### Claim C1: the tag label derivation -/

/-- C1: for every provider name, the managed tag label derived by the program
equals `lowercase(prefix + name-with-every-character-outside-[A-Za-z0-9]-removed)`
(the formula `specTagLabel`), and the same derivation is used when creating
tags (`create_provider_tags`, line 30) and when matching the streaming
providers to tags (`process_movies`, line 93): every label posted by tag
creation and every label logged for a provider match is `specTagLabel` of the
prefix and a provider name. -/
theorem C1_tag_label_derivation (config : Config) :
    ((create_provider_tags config).map Tag.label
      = config.requiredProviders.map (specTagLabel config.tagPfx)) ∧
    (∀ name, createProviderTagLabel config.tagPfx name = specTagLabel config.tagPfx name) ∧
    (∀ name, processTagToAdd config.tagPfx name = specTagLabel config.tagPfx name) ∧
    (∀ providerTagsToAdd resp movie lbl,
      MovieAction.logAddTag lbl ∈ (processMovie config providerTagsToAdd resp movie).actions →
        ∃ providers p, flatrateLookup resp config.providerRegion = some providers ∧
          p ∈ providers ∧ lbl = specTagLabel config.tagPfx p.provider_name) := by
  refine ⟨?_, fun _ => rfl, fun _ => rfl, ?_⟩
  · simp [create_provider_tags, createProviderTagLabel, specTagLabel, List.map_map,
      Function.comp]
  · intro providerTagsToAdd resp movie lbl h
    unfold processMovie at h
    cases hfl : flatrateLookup resp config.providerRegion with
    | none => rw [hfl] at h; simp at h
    | some providers =>
      rw [hfl] at h
      simp only [List.mem_flatten, List.mem_map] at h
      obtain ⟨inner, ⟨p, hp, rfl⟩, hmem⟩ := h
      rw [List.mem_filterMap] at hmem
      obtain ⟨t, _, ht⟩ := hmem
      refine ⟨providers, p, rfl, hp, ?_⟩
      split at ht
      · injection ht with h1
        injection h1 with h2
        exact h2.symm
      · exact absurd ht (by simp)

/-- Witness for C1, instantiating the matching part at a concrete movie
streaming on Netflix with prefix `"t-"`. -/
theorem C1_witness :
    ∃ providers p,
      flatrateLookup ⟨[("US", ⟨some [⟨"Netflix"⟩]⟩)]⟩ "US" = some providers ∧
        p ∈ providers ∧ "t-netflix" = specTagLabel "t-" p.provider_name :=
  (C1_tag_label_derivation
    { radarrUrl := "u", radarrApiKey := "k", tmdbApiKey := "tm", tagPfx := "t-",
      requiredProviders := ["Netflix"], providerRegion := "US" }).2.2.2
    [{ id := 10, label := "t-netflix" }] ⟨[("US", ⟨some [⟨"Netflix"⟩]⟩)]⟩
    { title := "M", tmdbId := 1, tags := [] } "t-netflix" (by decide)

/-! ### Claim C9: idempotence of the normalization -/

/-- C9: the tag-label normalization (remove every character outside
`[A-Za-z0-9]`, then lowercase) is idempotent, and its output contains only
characters in `[a-z0-9]`. -/
theorem C9_normalization_idempotent (s : String) :
    normalizeProviderName (normalizeProviderName s) = normalizeProviderName s ∧
    (normalizeProviderName s).data.all (fun c => c.isLower || c.isDigit) = true := by
  constructor
  · exact congrArg String.mk (normListIdem s.data)
  · exact normAllLowerDigit s.data

/-! ### Claim C2: the toRemove classification -/

/-- C2 counterexample: with prefix `"T-"` and an existing tag labelled
`"T-netflix"`, the label contains the prefix case-insensitively (so the claim
puts the tag in `toRemove`), yet `get_provider_tags` computes an empty
`toRemove`: line 52 tests the lowercased prefix against the raw label, which
is not a case-insensitive test. -/
theorem C2_counterexample :
    ciContains "T-netflix" "T-" = true ∧
    specToRemove "T-" [{ id := 1, label := "T-netflix" }] = [{ id := 1, label := "T-netflix" }] ∧
    (get_provider_tags
      { radarrUrl := "u", radarrApiKey := "k", tmdbApiKey := "tm", tagPfx := "T-",
        requiredProviders := ["Netflix"], providerRegion := "US" }
      ["netflix"] [{ id := 1, label := "T-netflix" }]).1 = [] :=
  ⟨by decide, by decide, by decide⟩

/-- C2 amended: `toRemove` contains exactly the existing tags whose label
contains the lowercased prefix as a case-sensitive substring, and membership
does not depend on the required-provider list, so such a tag is in `toRemove`
whether or not it also lands in `toAdd`. -/
theorem C2_toRemove_characterization (config : Config)
    (reqLower reqLowerAlt : List String) (existingTags : List Tag) (t : Tag) :
    (t ∈ (get_provider_tags config reqLower existingTags).1 ↔
      t ∈ existingTags ∧ strContains t.label (lowerStr config.tagPfx) = true) ∧
    (get_provider_tags config reqLower existingTags).1
      = (get_provider_tags config reqLowerAlt existingTags).1 :=
  ⟨List.mem_filter, rfl⟩

/-! ### Claim C3: the toAdd classification -/

/-- C3 counterexample: with prefix `"a"`, required names `["bnn"]` and an
existing tag labelled `"banana"`, line 54 removes every occurrence of the
prefix (`"banana".replace("a", "") == "bnn"`), so the tag lands in `toAdd`,
while the claim (label with the prefix stripped must equal a required name)
excludes it, `"banana"` not starting with the prefix. -/
theorem C3_counterexample :
    (get_provider_tags
      { radarrUrl := "u", radarrApiKey := "k", tmdbApiKey := "tm", tagPfx := "a",
        requiredProviders := ["bnn"], providerRegion := "US" }
      ["bnn"] [{ id := 1, label := "banana" }]).2 = [{ id := 1, label := "banana" }] ∧
    stripLeading "a" "banana" = "banana" ∧
    specToAdd "a" ["bnn"] [{ id := 1, label := "banana" }] = [] :=
  ⟨by decide, by decide, by decide⟩

/-- C3 amended: `toAdd` contains exactly the existing tags whose label, with
every occurrence of the lowercased prefix removed (Python `str.replace`),
exactly matches one of the normalized required-provider names. -/
theorem C3_toAdd_characterization (config : Config) (reqLower : List String)
    (existingTags : List Tag) (t : Tag) :
    t ∈ (get_provider_tags config reqLower existingTags).2 ↔
      t ∈ existingTags ∧ pyRemoveAll t.label (lowerStr config.tagPfx) ∈ reqLower := by
  simp [get_provider_tags, List.mem_filter]

/-! ### Claim C4: remove_provider_tags -/

/-- C4 counterexample: the claim says every id found in `toRemove` is deleted
from the current id list, but Python `list.remove` deletes only the first
occurrence: on the list `[2, 2]` with `toRemove = [{"id": 2}]` the id 2 is
still present in the result. -/
theorem C4_counterexample :
    remove_provider_tags [2, 2] [{ id := 2, label := "t-netflix" }] = [2] ∧
    2 ∈ remove_provider_tags [2, 2] [{ id := 2, label := "t-netflix" }] :=
  ⟨by decide, by decide⟩

/-- C4 amended: on a duplicate-free current id list (as Radarr tag sets are),
`remove_provider_tags` returns the list with every id found in `toRemove`
deleted, ids not present being silently ignored; in general only the first
occurrence of each id is removed. -/
theorem C4_remove_provider_tags (updateTags : List Nat) (toRemove : List Tag)
    (h : updateTags.Nodup) :
    remove_provider_tags updateTags toRemove
      = updateTags.filter (fun i => decide (i ∉ toRemove.map Tag.id)) := by
  induction toRemove generalizing updateTags with
  | nil => simp [remove_provider_tags]
  | cons t rem ih =>
    show remove_provider_tags (updateTags.erase t.id) rem = _
    rw [ih _ (h.erase t.id), List.Nodup.erase_eq_filter h, List.filter_filter]
    apply List.filter_congr
    intro i _
    simp [List.mem_cons, not_or, Bool.and_comm, bne, Bool.beq_eq_decide_eq]

/-- Witness for C4, covering the two concrete examples of the claim:
`remove_provider_tags([1,2,3], [{"id":2}])` is `[1,3]` and
`remove_provider_tags([1,3], [{"id":99}])` is `[1,3]`. -/
theorem C4_witness :
    ([1, 2, 3] : List Nat).Nodup ∧
    remove_provider_tags [1, 2, 3] [{ id := 2, label := "t-netflix" }] = [1, 3] ∧
    remove_provider_tags [1, 3] [{ id := 99, label := "t-hulu" }] = [1, 3] :=
  ⟨by decide,
   (C4_remove_provider_tags [1, 2, 3] [{ id := 2, label := "t-netflix" }] (by decide)).trans
     (by decide),
   (C4_remove_provider_tags [1, 3] [{ id := 99, label := "t-hulu" }] (by decide)).trans
     (by decide)⟩

/-! ### Claim C5: movies without a region or flatrate key are skipped -/

/-- C5: a movie whose TMDB watch-providers response lacks the configured
region key (or lacks the `flatrate` key under it) is skipped: its iteration
of the loop raises nothing, emits no actions, logs no updated record and
modifies no tag list, and processing continues with the remaining movies. -/
theorem C5_missing_providers_skips (config : Config)
    (providerTagsToRemove providerTagsToAdd : List Tag)
    (tmdb : Nat → TmdbResponse) (movie : Movie) (rest : List Movie)
    (h : List.lookup config.providerRegion (tmdb movie.tmdbId).results = none ∨
      ∃ e, List.lookup config.providerRegion (tmdb movie.tmdbId).results = some e ∧
        e.flatrate = none) :
    process_movies (movie :: rest) config providerTagsToRemove providerTagsToAdd tmdb
      = { movie := movie, skipped := true, actions := [], updatedRecord := none }
        :: process_movies rest config providerTagsToRemove providerTagsToAdd tmdb := by
  have hfl : flatrateLookup (tmdb movie.tmdbId) config.providerRegion = none := by
    unfold flatrateLookup
    rcases h with h | ⟨e, he, hf⟩
    · rw [h]; rfl
    · rw [he]; exact hf
  simp [process_movies, processMovie, hfl]

/-- Witness for C5: a response with no region entry at all. -/
theorem C5_witness :
    process_movies [{ title := "M", tmdbId := 7, tags := [3] }]
      { radarrUrl := "u", radarrApiKey := "k", tmdbApiKey := "tm", tagPfx := "t-",
        requiredProviders := ["Netflix"], providerRegion := "US" }
      [] [{ id := 10, label := "t-netflix" }] (fun _ => ⟨[]⟩)
      = [{ movie := { title := "M", tmdbId := 7, tags := [3] }, skipped := true,
           actions := [], updatedRecord := none }] :=
  C5_missing_providers_skips _ _ _ _ _ _ (Or.inl rfl)

/-! ### Claim C6: a tag-listing failure aborts the run -/

/-- C6: if the Radarr tag listing inside `get_provider_tags` fails, the
exception propagates to the handler in `main` and the run ends there: neither
the movie listing nor the movie processing step is ever attempted. -/
theorem C6_tag_listing_failure_aborts (env : RunEnv) (e : String)
    (h : env.tagsResult = .error e) :
    Step.getMoviesFromRadarr ∉ runMainSteps env ∧
    Step.processMovies ∉ runMainSteps env := by
  cases hcfg : env.configResult with
  | error err => simp [runMainSteps, hcfg]
  | ok cfg => simp [runMainSteps, hcfg, h]

/-- Witness for C6 at a concrete run whose tag listing fails. -/
theorem C6_witness :
    Step.getMoviesFromRadarr ∉ runMainSteps envTagsFail ∧
    Step.processMovies ∉ runMainSteps envTagsFail :=
  C6_tag_listing_failure_aborts envTagsFail "connection refused" rfl

/-! ### Claim C7: process_movies never updates Radarr -/

/-- C7: `process_movies` issues no movie-update call to Radarr and leaves
every movie record, including its tag-id list, unchanged: the result records
are exactly the input records, every emitted action is a log entry (never a
`radarrPut`), and the record logged as the updated movie, when present, is
the record received from Radarr. -/
theorem C7_no_update_call (movies : List Movie) (config : Config)
    (providerTagsToRemove providerTagsToAdd : List Tag) (tmdb : Nat → TmdbResponse) :
    ((process_movies movies config providerTagsToRemove providerTagsToAdd tmdb).map
        MovieResult.movie = movies) ∧
    (process_movies movies config providerTagsToRemove providerTagsToAdd tmdb).all
      (fun r => r.actions.all movieActionIsLogAdd
        && (r.updatedRecord.getD r.movie == r.movie)) = true := by
  constructor
  · unfold process_movies
    rw [List.map_map]
    have hmapid : (MovieResult.movie ∘ fun movie =>
        processMovie config providerTagsToAdd (tmdb movie.tmdbId) movie) = id := by
      funext m
      show (processMovie config providerTagsToAdd (tmdb m.tmdbId) m).movie = m
      unfold processMovie
      cases flatrateLookup (tmdb m.tmdbId) config.providerRegion <;> rfl
    rw [hmapid, List.map_id]
  · rw [List.all_eq_true]
    intro r hr
    unfold process_movies at hr
    rw [List.mem_map] at hr
    obtain ⟨m, _, rfl⟩ := hr
    unfold processMovie
    cases hfl : flatrateLookup (tmdb m.tmdbId) config.providerRegion with
    | none => simp
    | some providers =>
      rw [Bool.and_eq_true]
      refine ⟨?_, by simp⟩
      rw [List.all_eq_true]
      intro a ha
      simp only [List.mem_flatten, List.mem_map] at ha
      obtain ⟨inner, ⟨p, hp, rfl⟩, hmem⟩ := ha
      rw [List.mem_filterMap] at hmem
      obtain ⟨t, _, ht⟩ := hmem
      split at ht
      · injection ht with h1
        rw [← h1]
        rfl
      · exact absurd ht (by simp)

/-! ### Helper lemmas about all_providers -/

theorem all_providers_sorted (ps : List ProviderRecord) :
    (all_providers ps).Sorted strDataLe := by
  unfold all_providers
  exact List.sorted_insertionSort strDataLe ((ps.map (fun p => p.provider_name.getD "")).dedup)

theorem all_providers_nodup (ps : List ProviderRecord) : (all_providers ps).Nodup :=
  ((List.perm_insertionSort strDataLe _).nodup_iff).mpr
    (List.nodup_dedup (ps.map (fun p => p.provider_name.getD "")))

theorem all_providers_mem (ps : List ProviderRecord) (s : String) :
    s ∈ all_providers ps ↔ ∃ p ∈ ps, p.provider_name.getD "" = s := by
  unfold all_providers
  rw [List.mem_insertionSort, List.mem_dedup, List.mem_map]

theorem sorted_head_empty {l : List String} (hs : l.Sorted strDataLe) (hm : "" ∈ l) :
    l.head? = some "" := by
  cases l with
  | nil => cases hm
  | cons a t =>
    rcases List.mem_cons.mp hm with rfl | hmem
    · rfl
    · have h1 : strDataLe a "" := (List.sorted_cons.mp hs).1 "" hmem
      have h2 : a = "" := le_antisymm ((strDataLe_iff a "").mp h1) (emptyStringLe a)
      rw [h2]
      rfl

/-! ### Claim C8: the provider section of the reference dump -/

/-- C8: the provider section of the reference dump lists each distinct
provider name exactly once (no duplicates), in alphabetical order, and
contains exactly the names appearing in the fetched records; concretely, for
providers named Netflix, Hulu, Netflix the section lists exactly Hulu and
then Netflix. -/
theorem C8_provider_section (ps : List ProviderRecord) :
    (all_providers ps).Sorted (· ≤ ·) ∧
    (all_providers ps).Nodup ∧
    (∀ s, s ∈ all_providers ps ↔ ∃ p ∈ ps, p.provider_name.getD "" = s) ∧
    all_providers [⟨some "Netflix"⟩, ⟨some "Hulu"⟩, ⟨some "Netflix"⟩] = ["Hulu", "Netflix"] ∧
    providersReport [⟨"US", "United States"⟩]
        [⟨some "Netflix"⟩, ⟨some "Hulu"⟩, ⟨some "Netflix"⟩]
      = "Regions\n-------\nUS\tUnited States\n\n\nProviders\n---------\nHulu\nNetflix\n" := by
  refine ⟨?_, all_providers_nodup ps, all_providers_mem ps, by decide, by decide⟩
  exact (all_providers_sorted ps).imp (fun hab => (strDataLe_iff _ _).mp hab)

/-! ### Claim C10: a record without provider_name yields a leading blank line -/

/-- C10: a provider record lacking the `provider_name` key contributes the
empty string; after deduplication and sorting this single empty entry sorts
first, so whenever some fetched record has no name the provider section of
the report begins with a blank line: the written text is the region section,
the provider header, a bare newline, and then the remaining provider lines. -/
theorem C10_missing_name_blank_line (ps : List ProviderRecord) (regions : List RegionRecord)
    (h : ∃ p ∈ ps, p.provider_name = none) :
    (all_providers ps).head? = some "" ∧
    write_to_file regions (all_providers ps)
      = "Regions\n-------\n"
        ++ linesConcat (regions.map (fun r => r.iso_3166_1 ++ "\t" ++ r.english_name ++ "\n"))
        ++ "\n\nProviders\n---------\n" ++ "\n"
        ++ linesConcat (((all_providers ps).drop 1).map (fun p => p ++ "\n")) := by
  obtain ⟨p, hp, hnone⟩ := h
  have hmem : "" ∈ all_providers ps :=
    (all_providers_mem ps "").mpr ⟨p, hp, by rw [hnone]; rfl⟩
  have hhead : (all_providers ps).head? = some "" :=
    sorted_head_empty (all_providers_sorted ps) hmem
  refine ⟨hhead, ?_⟩
  cases hl : all_providers ps with
  | nil => rw [hl] at hhead; simp at hhead
  | cons a t =>
    rw [hl] at hhead
    simp only [List.head?_cons, Option.some.injEq] at hhead
    subst hhead
    refine String.toList_inj.mp ?_
    have h0 : ("" : String).data = [] := rfl
    simp [write_to_file, linesConcat, String.data_append, h0, String.toList]

/-- Witness for C10 at a concrete provider list with one nameless record. -/
theorem C10_witness :
    (all_providers [⟨none⟩, ⟨some "Netflix"⟩]).head? = some "" ∧
    write_to_file [⟨"US", "United States"⟩] (all_providers [⟨none⟩, ⟨some "Netflix"⟩])
      = "Regions\n-------\n"
        ++ linesConcat ([⟨"US", "United States"⟩].map
            (fun r : RegionRecord => r.iso_3166_1 ++ "\t" ++ r.english_name ++ "\n"))
        ++ "\n\nProviders\n---------\n" ++ "\n"
        ++ linesConcat (((all_providers [⟨none⟩, ⟨some "Netflix"⟩]).drop 1).map
            (fun p => p ++ "\n")) :=
  C10_missing_name_blank_line [⟨none⟩, ⟨some "Netflix"⟩] [⟨"US", "United States"⟩]
    ⟨⟨none⟩, by decide, rfl⟩
